import Mathlib

/-!
Verification of the memory-utility core of `google_keymaster_utils.h`
(Android keymaster): the `Eraser` scoped-zeroing guard and the `Buffer`
dual-cursor byte buffer.

Modelling conventions:
* A byte region in memory is a `List Nat` of its byte values; a possibly
  null `uint8_t*` pointing at a region is an `Option (List Nat)`
  (`none` = `NULL`).
* `size_t` values are `Nat`; the buffer cursors are declared `int` in the
  header and are modelled as `Int` (signed addition in `advance_read` /
  `advance_write`; overflow of the C `int` is undefined behaviour and is
  not modelled).
* Fallible operations return their success flag next to the new state;
  `read` returns `none` in place of the destination bytes on failure.
* A memory fault (dereferencing a null pointer) is modelled by the result
  `none` of an operation on an `Option (List Nat)` region.

The bodies of `Buffer::Reinitialize`, `Buffer::available_write`,
`Buffer::available_read`, `Buffer::read` and `Buffer::write` live in a
`.cpp` translation unit that is not part of the sources at hand (the
header only declares them); those five are modelled from the spec, as
marked in their doc comments.  Everything else (`memset_s`, `Eraser`, the
`Buffer` constructors, `buffer_size`, `peek_read`, `peek_write`,
`advance_read`, `advance_write`) is translated directly from the inline
code in the header.
-/

namespace Keymaster

/-- The C standard library `memset(s, c, n)`: stores `c` into each of the
first `n` bytes of the object pointed to by `s`.  When `n > 0` the bytes
`s[0] … s[n-1]` are accessed, so a null `s` is a memory fault (`none`).
When `n = 0` no byte is accessed and the call is a no-op. -/
def memset (s : Option (List Nat)) (c : Nat) (n : Nat) : Option (List Nat) :=
  match s with
  | none => if n = 0 then some [] else none
  | some mem => some (List.replicate n c ++ mem.drop n)

/-- `memset_s(s, c, n)` from the header: a variant of `memset` compiled
with optimizations disabled so the store is never elided; its result is
exactly `memset(s, c, n)`. -/
def memset_s (s : Option (List Nat)) (c : Nat) (n : Nat) : Option (List Nat) :=
  memset s c n

/-- The `Eraser` class: `buf_` is the (possibly null) `uint8_t*` to the
bound region, `size_` its byte count. -/
structure Eraser where
  buf_ : Option (List Nat)
  size_ : Nat
deriving DecidableEq, Repr

/-- The `Eraser(T& t)` and `Eraser(uint8_t (&arr)[N])` constructors: both
bind the whole region of the argument, so `size_` is exactly the byte
length of the bound region. -/
def Eraser.ofRegion (mem : List Nat) : Eraser :=
  { buf_ := some mem, size_ := mem.length }

/-- The `Eraser(void* buf, size_t size)` constructor. -/
def Eraser.ofPtr (buf : Option (List Nat)) (size : Nat) : Eraser :=
  { buf_ := buf, size_ := size }

/-- The destructor `~Eraser() { memset_s(buf_, 0, size_); }`: the state of
the bound region after destruction. -/
def Eraser.destroy (e : Eraser) : Option (List Nat) :=
  memset_s e.buf_ 0 e.size_

/-- The `Buffer` class: `buffer_` is the owned storage (`none` = `NULL`),
`buffer_size_` its allocated size (`size_t`), and the two cursors are the
`int` members `read_position_` and `write_position_`. -/
structure Buffer where
  buffer_ : Option (List Nat)
  buffer_size_ : Nat
  read_position_ : Int
  write_position_ : Int
deriving DecidableEq, Repr

/-- The default constructor
`Buffer() : buffer_(NULL), buffer_size_(0), read_position_(0), write_position_(0)`. -/
def Buffer.mkDefault : Buffer :=
  { buffer_ := none, buffer_size_ := 0, read_position_ := 0, write_position_ := 0 }

/-- Modelled from the spec (body of `Buffer::Reinitialize(size_t)` is not
in the sources at hand): allocates storage of `size` bytes, resets both
cursors to zero, releases any previous storage.  Allocation succeeds in
the model; `fresh` is the unspecified content of the newly allocated
(uninitialized) storage, universally quantified in the theorems. -/
def Buffer.ReinitializeSize (_b : Buffer) (size : Nat) (fresh : List Nat) :
    Buffer × Bool :=
  ({ buffer_ := some fresh, buffer_size_ := size,
     read_position_ := 0, write_position_ := 0 }, true)

/-- Modelled from the spec (body of `Buffer::Reinitialize(const void*, size_t)`
is not in the sources at hand): allocates storage of `size` bytes, copies
`size` bytes from `src` into it, sets `write_cursor = size`,
`read_cursor = 0`, releasing any previous storage.  Allocation succeeds in
the model. -/
def Buffer.ReinitializeData (_b : Buffer) (src : List Nat) (size : Nat) :
    Buffer × Bool :=
  ({ buffer_ := some (src.take size), buffer_size_ := size,
     read_position_ := 0, write_position_ := (size : Int) }, true)

/-- The `Buffer(size_t size)` constructor: starts with `buffer_(NULL)` and
calls `Reinitialize(size)`. -/
def Buffer.mkSize (size : Nat) (fresh : List Nat) : Buffer :=
  (Buffer.ReinitializeSize { Buffer.mkDefault with buffer_ := none } size fresh).1

/-- The `Buffer(const void* buf, size_t size)` constructor: starts with
`buffer_(NULL)` and calls `Reinitialize(buf, size)`. -/
def Buffer.mkData (src : List Nat) (size : Nat) : Buffer :=
  (Buffer.ReinitializeData { Buffer.mkDefault with buffer_ := none } src size).1

/-- Modelled from the spec (body of `Buffer::available_read` is not in the
sources at hand): `available_read() = write_cursor − read_cursor`. -/
def Buffer.available_read (b : Buffer) : Int :=
  b.write_position_ - b.read_position_

/-- Modelled from the spec (body of `Buffer::available_write` is not in
the sources at hand): `available_write() = capacity − write_cursor`. -/
def Buffer.available_write (b : Buffer) : Int :=
  (b.buffer_size_ : Int) - b.write_position_

/-- `Buffer::buffer_size()` from the header: returns `buffer_size_`. -/
def Buffer.buffer_size (b : Buffer) : Nat :=
  b.buffer_size_

/-- Modelled from the spec (body of `Buffer::read` is not in the sources
at hand): if `n > available_read()` the call fails and the buffer is left
unchanged; otherwise it copies `n` bytes starting at `read_cursor` into
the destination (returned here in place of the out-parameter) and
advances `read_cursor` by `n`. -/
def Buffer.read (b : Buffer) (n : Nat) : Buffer × Option (List Nat) :=
  if (n : Int) > b.available_read then (b, none)
  else ({ b with read_position_ := b.read_position_ + (n : Int) },
        some (((b.buffer_.getD []).drop b.read_position_.toNat).take n))

/-- Modelled from the spec (body of `Buffer::write` is not in the sources
at hand): if `n > available_write()` the call fails and the buffer is left
unchanged; otherwise it copies `n` bytes from `src` into storage starting
at `write_cursor` and advances `write_cursor` by `n`. -/
def Buffer.write (b : Buffer) (src : List Nat) (n : Nat) : Buffer × Bool :=
  if (n : Int) > b.available_write then (b, false)
  else ({ b with
          buffer_ := b.buffer_.map (fun mem =>
            mem.take b.write_position_.toNat ++ src.take n
              ++ mem.drop (b.write_position_.toNat + n)),
          write_position_ := b.write_position_ + (n : Int) }, true)

/-- `Buffer::peek_read()` from the header: the view `buffer_ + read_position_`
into storage, modelled as the suffix of storage from the read cursor. -/
def Buffer.peek_read (b : Buffer) : Option (List Nat) :=
  b.buffer_.map (fun mem => mem.drop b.read_position_.toNat)

/-- `Buffer::peek_write()` from the header: the view `buffer_ + write_position_`
into storage, modelled as the suffix of storage from the write cursor. -/
def Buffer.peek_write (b : Buffer) : Option (List Nat) :=
  b.buffer_.map (fun mem => mem.drop b.write_position_.toNat)

/-- `Buffer::advance_read(int distance) { read_position_ += distance; }`
from the header, verbatim: unchecked signed addition. -/
def Buffer.advance_read (b : Buffer) (distance : Int) : Buffer :=
  { b with read_position_ := b.read_position_ + distance }

/-- `Buffer::advance_write(int distance) { write_position_ += distance; }`
from the header, verbatim: unchecked signed addition. -/
def Buffer.advance_write (b : Buffer) (distance : Int) : Buffer :=
  { b with write_position_ := b.write_position_ + distance }

/-- The buffer invariant stated by the spec's data model:
`0 ≤ read_cursor ≤ write_cursor ≤ capacity`. -/
def Buffer.WF (b : Buffer) : Prop :=
  0 ≤ b.read_position_ ∧ b.read_position_ ≤ b.write_position_
    ∧ b.write_position_ ≤ (b.buffer_size_ : Int)

instance (b : Buffer) : Decidable b.WF := by
  unfold Buffer.WF; infer_instance

/-- Buffers reachable from construction by the checked operations:
default construction, the sizing and copying constructors, both forms of
`Reinitialize`, `read` and `write` (the const queries do not mutate). -/
inductive Buffer.Reachable : Buffer → Prop where
  | mkDefault : Buffer.Reachable Buffer.mkDefault
  | mkSize (size : Nat) (fresh : List Nat) : Buffer.Reachable (Buffer.mkSize size fresh)
  | mkData (src : List Nat) (size : Nat) : Buffer.Reachable (Buffer.mkData src size)
  | reinitSize (b : Buffer) (size : Nat) (fresh : List Nat) :
      Buffer.Reachable b → Buffer.Reachable (b.ReinitializeSize size fresh).1
  | reinitData (b : Buffer) (src : List Nat) (size : Nat) :
      Buffer.Reachable b → Buffer.Reachable (b.ReinitializeData src size).1
  | readStep (b : Buffer) (n : Nat) :
      Buffer.Reachable b → Buffer.Reachable (b.read n).1
  | writeStep (b : Buffer) (src : List Nat) (n : Nat) :
      Buffer.Reachable b → Buffer.Reachable (b.write src n).1

/-- Running a sequence of `read` requests against a buffer, collecting the
outcome of each request in order. -/
def Buffer.runReads (b : Buffer) : List Nat → List (Option (List Nat))
  | [] => []
  | n :: ns => (b.read n).2 :: Buffer.runReads (b.read n).1 ns

/-- Claim C10: `advance_read(d)` changes exactly the read cursor and by
exactly `d` (signed addition), `advance_write(d)` changes exactly the
write cursor by exactly `d`; neither touches storage, capacity, or the
other cursor, and both are total (no bounds check, no result), so they can
move a cursor below zero or beyond the bounds `read`/`write` enforce. -/
theorem advance_read_write_frame (b : Buffer) (d : Int) :
    (b.advance_read d).read_position_ = b.read_position_ + d ∧
    (b.advance_read d).write_position_ = b.write_position_ ∧
    (b.advance_read d).buffer_ = b.buffer_ ∧
    (b.advance_read d).buffer_size_ = b.buffer_size_ ∧
    (b.advance_write d).write_position_ = b.write_position_ + d ∧
    (b.advance_write d).read_position_ = b.read_position_ ∧
    (b.advance_write d).buffer_ = b.buffer_ ∧
    (b.advance_write d).buffer_size_ = b.buffer_size_ :=
  ⟨rfl, rfl, rfl, rfl, rfl, rfl, rfl, rfl⟩

/-- The unchecked advance can leave the model's data-model range: advancing
the read cursor of a fresh buffer by `-3` leaves the cursor at `-3`,
outside the bounds `read` and `write` enforce. -/
theorem advance_read_below_zero :
    ((Buffer.mkSize 4 [0, 0, 0, 0]).advance_read (-3)).read_position_ = -3 := by
  decide

/-- Claim C7: after a successful `Reinitialize(capacity)` the buffer has
`available_read() = 0` and `available_write() = capacity`: both cursors
are reset to zero and the storage holds exactly `capacity` bytes. -/
theorem reinitialize_size_resets (b : Buffer) (size : Nat) (fresh : List Nat)
    (hfresh : fresh.length = size) :
    (b.ReinitializeSize size fresh).2 = true ∧
    (b.ReinitializeSize size fresh).1.available_read = 0 ∧
    (b.ReinitializeSize size fresh).1.available_write = (size : Int) ∧
    (b.ReinitializeSize size fresh).1.read_position_ = 0 ∧
    (b.ReinitializeSize size fresh).1.write_position_ = 0 ∧
    (b.ReinitializeSize size fresh).1.buffer_size_ = size ∧
    (∀ mem, (b.ReinitializeSize size fresh).1.buffer_ = some mem →
      mem.length = size) := by
  refine ⟨rfl, by simp [Buffer.ReinitializeSize, Buffer.available_read],
    by simp [Buffer.ReinitializeSize, Buffer.available_write], rfl, rfl, rfl, ?_⟩
  intro mem hmem
  cases hmem
  exact hfresh

/-- Witness for C7 at capacity 3 with concrete fresh storage. -/
theorem reinitialize_size_resets_witness :
    ([9, 9, 9] : List Nat).length = 3 ∧
    (Buffer.mkDefault.ReinitializeSize 3 [9, 9, 9]).1.available_write = (3 : Int) :=
  ⟨rfl, (reinitialize_size_resets Buffer.mkDefault 3 [9, 9, 9] rfl).2.2.1⟩

/-- Claim C3: after `Reinitialize(s, n)` with `n = length s` succeeds,
`available_read() = n` and a subsequent read of `n` bytes succeeds and
yields exactly `s`. -/
theorem reinitialize_data_roundtrip (b : Buffer) (s : List Nat) :
    (b.ReinitializeData s s.length).2 = true ∧
    (b.ReinitializeData s s.length).1.available_read = (s.length : Int) ∧
    ((b.ReinitializeData s s.length).1.read s.length).2 = some s := by
  refine ⟨rfl, by simp [Buffer.ReinitializeData, Buffer.available_read], ?_⟩
  simp [Buffer.ReinitializeData, Buffer.read, Buffer.available_read]

/-- Claim C9: the state produced by either form of `Reinitialize` is
independent of the prior state, so no subsequent sequence of reads (of any
lengths whatsoever) can observe a byte written before the
re-initialization: the observations after re-initializing any buffer `b1`
coincide with those after re-initializing any other buffer `b2` with the
same arguments. -/
theorem reinitialize_discards_prior (b1 b2 : Buffer) (src : List Nat)
    (size : Nat) (fresh : List Nat) (ns : List Nat) :
    (b1.ReinitializeData src size).1.runReads ns
        = (b2.ReinitializeData src size).1.runReads ns ∧
    (b1.ReinitializeSize size fresh).1.runReads ns
        = (b2.ReinitializeSize size fresh).1.runReads ns ∧
    (b1.ReinitializeData src size).1 = (b2.ReinitializeData src size).1 ∧
    (b1.ReinitializeSize size fresh).1 = (b2.ReinitializeSize size fresh).1 :=
  ⟨rfl, rfl, rfl, rfl⟩

/-- Claim C5: destroying an `Eraser` bound to a non-null region of exactly
`length` bytes (as the object, array and full pointer-range constructors
bind it) overwrites every one of those bytes with zero. -/
theorem eraser_destroy_zeroizes (mem : List Nat) :
    (Eraser.ofRegion mem).destroy = some (List.replicate mem.length 0) ∧
    (Eraser.ofPtr (some mem) mem.length).destroy
        = some (List.replicate mem.length 0) := by
  constructor <;>
    simp [Eraser.ofRegion, Eraser.ofPtr, Eraser.destroy, memset_s, memset]

/-- Claim C6 counterexample: an `Eraser` bound to a null pointer with
nonzero length is not inert at destruction: `~Eraser` passes the null
pointer straight to `memset` with count 1, which accesses the first byte
through the null pointer — a memory fault (`none`), not a no-op. -/
theorem eraser_null_nonzero_faults :
    (Eraser.ofPtr none 1).destroy = none := by
  decide

/-- Claim C6 amended: the destructor performs no null check and hands the
region to `memset` unconditionally; a zero-length target is a successful
no-op even when the pointer is null, but a null pointer with nonzero
length is dereferenced (a fault), so only the zero-length case is inert. -/
theorem eraser_null_destroy (n : Nat) :
    (Eraser.ofPtr none n).destroy = if n = 0 then some [] else none := by
  rfl

/-- Claim C1: over the spec's data-model states (those satisfying the
invariant `0 ≤ read_cursor ≤ write_cursor ≤ capacity`, with the source
holding at least `n` bytes), `write(src, n)` with `n > available_write()`
fails and leaves the whole buffer state unchanged; otherwise it succeeds,
advances the write cursor by exactly `n`, leaves the read cursor and
capacity unchanged, and updates storage so that the `n` bytes at the old
write cursor are the first `n` bytes of `src` while every byte outside
that window is unchanged. -/
theorem write_spec (b : Buffer) (src : List Nat) (n : Nat)
    (hwf : b.WF) (hsrc : n ≤ src.length) :
    ((n : Int) > b.available_write →
      (b.write src n).2 = false ∧ (b.write src n).1 = b) ∧
    ((n : Int) ≤ b.available_write →
      (b.write src n).2 = true ∧
      (b.write src n).1.write_position_ = b.write_position_ + (n : Int) ∧
      (b.write src n).1.read_position_ = b.read_position_ ∧
      (b.write src n).1.buffer_size_ = b.buffer_size_ ∧
      (∀ mem, b.buffer_ = some mem → mem.length = b.buffer_size_ →
        ∃ mem2, (b.write src n).1.buffer_ = some mem2 ∧
          mem2.length = mem.length ∧
          (∀ i, i < n → mem2[b.write_position_.toNat + i]? = src[i]?) ∧
          (∀ j, j < b.write_position_.toNat → mem2[j]? = mem[j]?) ∧
          (∀ j, b.write_position_.toNat + n ≤ j → mem2[j]? = mem[j]?))) := by
  obtain ⟨hr0, hrw, hwc⟩ := hwf
  constructor
  · intro hgt
    simp [Buffer.write, hgt]
  · intro hle
    have hngt : ¬ (n : Int) > b.available_write := not_lt.mpr hle
    have hle2 : b.write_position_ + (n : Int) ≤ (b.buffer_size_ : Int) := by
      simp only [Buffer.available_write] at hle
      omega
    have hw0 : (0 : Int) ≤ b.write_position_ := le_trans hr0 hrw
    refine ⟨by simp [Buffer.write, hngt], by simp [Buffer.write, hngt],
      by simp [Buffer.write, hngt], by simp [Buffer.write, hngt], ?_⟩
    intro mem hmem hlen
    have hpn : b.write_position_.toNat + n ≤ mem.length := by omega
    have hA : (mem.take b.write_position_.toNat).length = b.write_position_.toNat :=
      List.length_take_of_le (by omega)
    have hB : (src.take n).length = n := List.length_take_of_le hsrc
    refine ⟨mem.take b.write_position_.toNat ++ (src.take n
        ++ mem.drop (b.write_position_.toNat + n)),
      by simp [Buffer.write, hngt, hmem], ?_, ?_, ?_, ?_⟩
    · simp only [List.length_append, hA, hB, List.length_drop]
      omega
    · intro i hi
      rw [List.getElem?_append_right (by omega), hA]
      have hidx : b.write_position_.toNat + i - b.write_position_.toNat = i := by omega
      rw [hidx, List.getElem?_append_left (by omega), List.getElem?_take_of_lt hi]
    · intro j hj
      rw [List.getElem?_append_left (by omega), List.getElem?_take_of_lt hj]
    · intro j hj
      rw [List.getElem?_append_right (by omega), hA,
        List.getElem?_append_right (by omega), hB, List.getElem?_drop]
      congr 1
      omega

/-- Witness for C1: a concrete in-bounds write into a fresh buffer of
capacity 4 succeeds. -/
theorem write_spec_witness :
    (Buffer.mkSize 4 [9, 9, 9, 9]).WF ∧ 2 ≤ ([1, 2, 3] : List Nat).length ∧
    ((Buffer.mkSize 4 [9, 9, 9, 9]).write [1, 2, 3] 2).2 = true :=
  ⟨by decide, by decide,
    ((write_spec (Buffer.mkSize 4 [9, 9, 9, 9]) [1, 2, 3] 2 (by decide)
      (by decide)).2 (by decide)).1⟩

/-- Claim C2: over the spec's data-model states, `read(dest, n)` with
`n > available_read()` fails and leaves the whole buffer state (in
particular the read cursor) unchanged; otherwise it succeeds, advances the
read cursor by exactly `n`, leaves everything else unchanged, and the
delivered bytes are exactly the `n` bytes of storage starting at the old
read cursor. -/
theorem read_spec (b : Buffer) (n : Nat) (hwf : b.WF) :
    ((n : Int) > b.available_read → b.read n = (b, none)) ∧
    ((n : Int) ≤ b.available_read →
      (b.read n).1.read_position_ = b.read_position_ + (n : Int) ∧
      (b.read n).1.write_position_ = b.write_position_ ∧
      (b.read n).1.buffer_size_ = b.buffer_size_ ∧
      (b.read n).1.buffer_ = b.buffer_ ∧
      ∃ bytes, (b.read n).2 = some bytes ∧
        ∀ mem, b.buffer_ = some mem →
          (∀ i, i < n → bytes[i]? = mem[b.read_position_.toNat + i]?) ∧
          (mem.length = b.buffer_size_ → bytes.length = n)) := by
  obtain ⟨hr0, hrw, hwc⟩ := hwf
  constructor
  · intro hgt
    simp [Buffer.read, hgt]
  · intro hle
    have hngt : ¬ (n : Int) > b.available_read := not_lt.mpr hle
    have hle2 : b.read_position_ + (n : Int) ≤ b.write_position_ := by
      simp only [Buffer.available_read] at hle
      omega
    refine ⟨by simp [Buffer.read, hngt], by simp [Buffer.read, hngt],
      by simp [Buffer.read, hngt], by simp [Buffer.read, hngt],
      ((b.buffer_.getD []).drop b.read_position_.toNat).take n,
      by simp [Buffer.read, hngt], ?_⟩
    intro mem hmem
    constructor
    · intro i hi
      rw [hmem, List.getElem?_take_of_lt hi, List.getElem?_drop]
      rfl
    · intro hlen
      rw [hmem]
      simp only [Option.getD_some, List.length_take, List.length_drop]
      omega

/-- Witness for C2: a concrete in-bounds read from a buffer initialized
from three bytes succeeds and advances the read cursor to 2. -/
theorem read_spec_witness :
    (Buffer.mkData [4, 5, 6] 3).WF ∧
    ((Buffer.mkData [4, 5, 6] 3).read 2).1.read_position_
        = (Buffer.mkData [4, 5, 6] 3).read_position_ + (2 : Int) :=
  ⟨by decide,
    ((read_spec (Buffer.mkData [4, 5, 6] 3) 2 (by decide)).2 (by decide)).1⟩

/-- Claim C8: over the spec's data-model states, zero-length `read` and
`write` always succeed and leave the buffer unchanged; and on a
default-constructed buffer (null storage, zero capacity) every `read` or
`write` of `n > 0` bytes fails exactly as a request exceeding the
available capacity, with the whole state — including the absent (null)
storage — untouched. -/
theorem zero_length_and_empty_buffer (b : Buffer) (src : List Nat) (n : Nat)
    (hwf : b.WF) (hn : 0 < n) :
    (b.read 0).2 = some [] ∧ (b.read 0).1 = b ∧
    (b.write src 0).2 = true ∧ (b.write src 0).1 = b ∧
    Buffer.mkDefault.read n = (Buffer.mkDefault, none) ∧
    Buffer.mkDefault.write src n = (Buffer.mkDefault, false) := by
  obtain ⟨hr0, hrw, hwc⟩ := hwf
  have hgr : ¬ b.available_read < 0 := by
    simp only [Buffer.available_read]
    omega
  have hgw : ¬ b.available_write < 0 := by
    simp only [Buffer.available_write]
    omega
  have hn' : (0 : Int) < (n : Int) := by exact_mod_cast hn
  refine ⟨by simp [Buffer.read, hgr], ?_, by simp [Buffer.write, hgw], ?_,
    by simp [Buffer.read, Buffer.available_read, Buffer.mkDefault, hn'],
    by simp [Buffer.write, Buffer.available_write, Buffer.mkDefault, hn']⟩
  · simp [Buffer.read, hgr]
  · obtain ⟨buf, sz, rp, wp⟩ := b
    simp only [Buffer.write] at hgw ⊢
    rw [if_neg (by simpa using hgw)]
    cases buf with
    | none => simp
    | some mem => simp

/-- Witness for C8: applied to a concrete two-byte buffer and `n = 1`. -/
theorem zero_length_and_empty_buffer_witness :
    (Buffer.mkSize 2 [5, 5]).WF ∧ 0 < 1 ∧
    ((Buffer.mkSize 2 [5, 5]).read 0).2 = some [] ∧
    Buffer.mkDefault.read 1 = (Buffer.mkDefault, none) :=
  ⟨by decide, by decide,
    (zero_length_and_empty_buffer (Buffer.mkSize 2 [5, 5]) [7] 1 (by decide)
      (by decide)).1,
    (zero_length_and_empty_buffer (Buffer.mkSize 2 [5, 5]) [7] 1 (by decide)
      (by decide)).2.2.2.2.1⟩

/-- Claim C4: every buffer reachable from construction by the checked
operations (default construction, the sizing and copying constructors,
both `Reinitialize` forms, `read` and `write`; the const queries do not
mutate) satisfies `0 ≤ read_cursor ≤ write_cursor ≤ capacity`. -/
theorem reachable_buffers_wf (b : Buffer) (h : b.Reachable) : b.WF := by
  induction h with
  | mkDefault =>
    exact ⟨Int.le_refl 0, Int.le_refl 0, by simp [Buffer.mkDefault]⟩
  | mkSize size fresh =>
    exact ⟨Int.le_refl 0, Int.le_refl 0, by
      simp only [Buffer.mkSize, Buffer.ReinitializeSize]
      omega⟩
  | mkData src size =>
    refine ⟨Int.le_refl 0, ?_, ?_⟩ <;>
      simp only [Buffer.mkData, Buffer.ReinitializeData] <;> omega
  | reinitSize b size fresh hb ih =>
    refine ⟨Int.le_refl 0, Int.le_refl 0, ?_⟩
    simp only [Buffer.ReinitializeSize]
    omega
  | reinitData b src size hb ih =>
    refine ⟨Int.le_refl 0, ?_, ?_⟩ <;>
      simp only [Buffer.ReinitializeData] <;> omega
  | readStep b n hb ih =>
    obtain ⟨h1, h2, h3⟩ := ih
    by_cases hgt : (n : Int) > b.available_read
    · simpa [Buffer.read, hgt] using ⟨h1, h2, h3⟩
    · have hle : (n : Int) ≤ b.write_position_ - b.read_position_ := by
        simpa [Buffer.available_read] using not_lt.mp hgt
      refine ⟨?_, ?_, ?_⟩ <;> simp only [Buffer.read, if_neg hgt] <;> omega
  | writeStep b src n hb ih =>
    obtain ⟨h1, h2, h3⟩ := ih
    by_cases hgt : (n : Int) > b.available_write
    · simpa [Buffer.write, hgt] using ⟨h1, h2, h3⟩
    · have hle : (n : Int) ≤ (b.buffer_size_ : Int) - b.write_position_ := by
        simpa [Buffer.available_write] using not_lt.mp hgt
      refine ⟨?_, ?_, ?_⟩ <;> simp only [Buffer.write, if_neg hgt] <;> omega

/-- Witness for C4: a buffer built by a sizing constructor is reachable
and satisfies the invariant. -/
theorem reachable_buffers_wf_witness : (Buffer.mkSize 3 [0, 0, 0]).WF :=
  reachable_buffers_wf (Buffer.mkSize 3 [0, 0, 0])
    (Buffer.Reachable.mkSize 3 [0, 0, 0])

end Keymaster
